import Mathlib

/-!
Verification development for the Icon Normalizer plugin.

The program (src/figma-plugin/code.js; src/unnamed/part_000 is a near-duplicate
that differs only in the geometry pass) resolves a user selection into icon
nodes, exports them, sends them to an external normalization stage, and builds
for each successfully normalized icon one variant set containing three size
components (16, 24, 32).

Shallow embedding, by component:

* Geometry Normalizer (`outlineAndFlatten`, code.js lines 65-120): scene-graph
  subtrees are modelled by `FNode`, which records the one attribute the
  geometry claims are about — the number of active strokes on a node — plus
  the child list.  The host primitives are opaque and may fail, so they enter
  as parameters: `out : FNode → Option FNode` is the behaviour of
  `node.outlineStroke()` (`none` models a throw, which leaves the node in
  place; `some r` models the destructive replacement of the node by `r`,
  removing the node's previously collected descendants), and
  `flattenOk : Bool` says whether `figma.flatten` succeeds.  A successful
  flatten yields a single childless vector node whose strokes the code then
  clears (`flat.strokes = []`).

* Selection Resolver (`getIconNodes`, code.js lines 16-40): selection nodes
  are modelled by `SNode` with the attributes the code reads: presence of
  `exportAsync` (`exportable`), `visible`, node type, presence of a
  `children` property, and the child list.  The outcome records the icon
  list plus whether the resolver notified the user and closed the plugin.

* Output creation (`createOutput` / `createComponentSet`, code.js lines
  124-249): normalization results carry a display name and an optional
  error.  Per-icon assembly runs under a try/catch, so whether
  `createComponentSet` completes for a result is a parameter
  `assembleOk : NormResult → Bool`; a caught assembly exception contributes
  no variant set but the final notification still counts from the filtered
  result lists.  The per-size markup content is not tracked (the geometry
  side of a size node is the `FNode` model above); the assembly claims are
  about counts, sizes and names.

* Name stripping (code.js line 194): the regex replace
  `name.replace(/[_\-]?(16|24|32)(dp)?$/i, '')` removes the leftmost match of
  an end-anchored pattern, which is exactly the longest suffix of the name
  belonging to the pattern's finite language `suffixForms` (case-insensitivity
  only affects the two unit letters, giving the four spellings of "dp").
-/

/-! ## Geometry Normalizer (code.js lines 65-120) -/

/-- Scene-graph subtree as seen by the geometry pass: number of active strokes
on the node (`child.strokes.length`) and the list of children. -/
inductive FNode : Type where
  | node : Nat → List FNode → FNode

/-- Number of active strokes on the node itself. -/
def FNode.strokes : FNode → Nat
  | .node s _ => s

/-- Child list of the node. -/
def FNode.children : FNode → List FNode
  | .node _ cs => cs

mutual
/-- Number of stroked nodes in the subtree rooted at a node, the node itself
included.  `collectStrokedNodes` (code.js lines 69-81) collects exactly the
strict descendants of its argument that carry at least one stroke, so the
scan of a component returns a list of length `strokedCountList comp.children`. -/
def strokedCount : FNode → Nat
  | .node s cs => (if 0 < s then 1 else 0) + strokedCountList cs
/-- Number of stroked nodes occurring in a forest (all nodes counted). -/
def strokedCountList : List FNode → Nat
  | [] => 0
  | c :: cs => strokedCount c + strokedCountList cs
end

mutual
/-- One collect-and-outline pass (body of the loop at code.js lines 84-93)
applied below a node: every stroked node found by the scan has
`outlineStroke()` invoked on it.  On success the node is replaced by the
result and its (removed) descendants are skipped; on a throw (`out _ = none`)
the node is kept and its collected stroked descendants are still outlined. -/
def passNode (out : FNode → Option FNode) : FNode → FNode
  | .node s cs => .node s (passList out cs)
/-- One collect-and-outline pass over a forest of siblings. -/
def passList (out : FNode → Option FNode) : List FNode → List FNode
  | [] => []
  | c :: cs =>
      (if 0 < c.strokes then
        match out c with
        | some r => r
        | none => passNode out c
      else passNode out c) :: passList out cs
end

/-- The bounded outline loop (code.js lines 84-93): up to `fuel` passes
(5 in the source), stopping as soon as a scan finds zero stroked nodes.
Returns the resulting tree together with the number of passes executed. -/
def outlineLoop (out : FNode → Option FNode) : Nat → FNode → FNode × Nat
  | 0, comp => (comp, 0)
  | fuel + 1, comp =>
      if strokedCountList comp.children = 0 then (comp, 0)
      else
        let r := outlineLoop out fuel (passNode out comp)
        (r.1, r.2 + 1)

/-- Phase 2 (code.js lines 96-107): if the component has children, try
`figma.flatten`.  Success replaces all children by a single childless vector
whose strokes the code immediately clears (`flat.strokes = []`); a throw
leaves the children unchanged. -/
def flattenPhase (flattenOk : Bool) (comp : FNode) : FNode :=
  if 0 < comp.children.length then
    if flattenOk then FNode.node comp.strokes [FNode.node 0 []]
    else comp
  else comp

/-- Phase 3 safety net, per child (code.js lines 111-118): a child that still
carries strokes has them cleared; the pass does not recurse into grandchildren. -/
def stripChild (c : FNode) : FNode :=
  if 0 < c.strokes then FNode.node 0 c.children else c

/-- Phase 3 safety net (code.js lines 110-119): clear residual strokes on all
immediate children of the component. -/
def stripChildren (comp : FNode) : FNode :=
  FNode.node comp.strokes (comp.children.map stripChild)

/-- The Geometry Normalizer `outlineAndFlatten` (code.js lines 65-120):
outline loop with ceiling 5, then the flatten attempt, then the strip pass. -/
def outlineAndFlatten (out : FNode → Option FNode) (flattenOk : Bool)
    (comp : FNode) : FNode :=
  stripChildren (flattenPhase flattenOk (outlineLoop out 5 comp).1)

/-! ## Selection Resolver (code.js lines 12-40) -/

/-- Node types distinguished by `getIconNodes`: COMPONENT, INSTANCE, or
anything else (frames, groups, vectors, ...). -/
inductive NType : Type where
  | component
  | inst
  | frame
  | other
deriving DecidableEq

/-- Selection node with the attributes `getIconNodes` reads: whether the node
supports `exportAsync`, its visibility, its type, whether it has a `children`
property, and the child list. -/
inductive SNode : Type where
  | mk : Bool → Bool → NType → Bool → List SNode → SNode

/-- Whether the node has an `exportAsync` method. -/
def SNode.exportable : SNode → Bool
  | .mk e _ _ _ _ => e

/-- Whether the node is visible. -/
def SNode.visible : SNode → Bool
  | .mk _ v _ _ _ => v

/-- The node's type. -/
def SNode.ntype : SNode → NType
  | .mk _ _ t _ _ => t

/-- Whether the node exposes a `children` property. -/
def SNode.hasChildren : SNode → Bool
  | .mk _ _ _ h _ => h

/-- Child list of a selection node. -/
def SNode.children : SNode → List SNode
  | .mk _ _ _ _ cs => cs

/-- `isExportableNode` (code.js lines 12-14): supports export and is visible. -/
def isExportableNode (n : SNode) : Bool :=
  n.exportable && n.visible

/-- Outcome of selection resolution: the icon list, whether the resolver
issued a user notification, and whether it closed the plugin. -/
structure ResolveOut : Type where
  icons : List SNode
  notified : Bool
  closed : Bool

/-- `getIconNodes` (code.js lines 16-40).  Empty selection: notify the user
and close the plugin.  A single selected node with a nonempty child list is
unwrapped unless it is a component or instance; if unwrapping finds no
exportable child, control falls through to the broad rule that filters the
original selection.  No branch other than the empty-selection one notifies
the user or closes the plugin. -/
def getIconNodes : List SNode → ResolveOut
  | [] => { icons := [], notified := true, closed := true }
  | n :: rest =>
      if rest.length = 0 ∧ n.hasChildren = true ∧ 0 < n.children.length then
        if n.ntype = NType.component ∨ n.ntype = NType.inst then
          { icons := [n], notified := false, closed := false }
        else
          if 0 < (n.children.filter isExportableNode).length then
            { icons := n.children.filter isExportableNode,
              notified := false, closed := false }
          else
            { icons := (n :: rest).filter isExportableNode,
              notified := false, closed := false }
      else
        { icons := (n :: rest).filter isExportableNode,
          notified := false, closed := false }

/-! ## Variant-set base-name derivation (code.js line 194) -/

/-- Optional separator of the size suffix: absent, underscore, or hyphen. -/
def seps : List String := ["", "_", "-"]

/-- The size numerals of the suffix pattern. -/
def nums : List String := ["16", "24", "32"]

/-- Optional unit letters of the suffix pattern.  The regex piece is
case-insensitive, so the unit is absent or one of the four spellings. -/
def unitSuffixes : List String := ["", "dp", "dP", "Dp", "DP"]

/-- The finite language of the end-anchored pattern at code.js line 194. -/
def suffixForms : List String :=
  seps.flatMap fun a => nums.flatMap fun b => unitSuffixes.map fun u => a ++ b ++ u

/-- Character-exact suffix test (all strings involved are ASCII). -/
def strEndsWith (s f : String) : Bool :=
  List.isSuffixOf f.data s.data

/-- Remove the last `k` characters of a string. -/
def strDropRightN (s : String) (k : Nat) : String :=
  String.mk (s.data.take (s.data.length - k))

/-- The base-name derivation
`result.name.replace(/[_\-]?(16|24|32)(dp)?$/i, '')` (code.js line 194):
non-global replace removes the leftmost match; since the pattern is anchored
at the end of the string, the leftmost match is the longest suffix of the
name lying in `suffixForms`, and the replacement is the empty string. -/
def stripSizeSuffix (s : String) : String :=
  match (suffixForms.filter fun f => strEndsWith s f).argmax String.length with
  | some f => strDropRightN s f.length
  | none => s

/-- Predicate from the specification's words: a size suffix is an optional
underscore or hyphen separator, one of the numerals 16, 24 or 32, and
optional unit letters (the pattern's "dp", matched case-insensitively). -/
def SpecSizeSuffix (f : String) : Prop :=
  ∃ a ∈ seps, ∃ b ∈ nums, ∃ u ∈ unitSuffixes, f = a ++ b ++ u

/-! ## Output creation (code.js lines 124-249) -/

/-- A normalization result received from the UI stage: the display name and
the optional error (`error` non-null marks total failure for that icon).
Per-size markup is not tracked; geometry is modelled by `FNode` above. -/
structure NormResult : Type where
  name : String
  error : Option String
deriving DecidableEq

/-- One size component produced by `createComponentSet`: its name
(`baseName_size`) and its square dimension (`comp.resize(size, size)`). -/
structure SizeNode : Type where
  name : String
  size : Nat
deriving DecidableEq

/-- One combined component set: canonical name and the size components in
creation order. -/
structure VariantSet : Type where
  name : String
  variants : List SizeNode
deriving DecidableEq

/-- The fixed ordered target sizes (code.js line 190). -/
def targetSizes : List Nat := [16, 24, 32]

/-- `createComponentSet` (code.js lines 189-249): derive the base name, build
one component per target size named `baseName_size` and sized to the square
dimension, and combine them into a set named after the base. -/
def createComponentSet (result : NormResult) : VariantSet :=
  { name := stripSizeSuffix result.name,
    variants := targetSizes.map fun size =>
      { name := stripSizeSuffix result.name ++ "_" ++ toString size,
        size := size } }

/-- Observable outcome of `createOutput`: the variant sets present in the
output frame, and the two counts of the final notification (`Created N
icon(s) ...` and `... K failed.`). -/
structure Output : Type where
  sets : List VariantSet
  notifiedCreated : Nat
  notifiedFailed : Nat
deriving DecidableEq

/-- `createOutput` (code.js lines 124-187).  Results are partitioned by the
`error` field; all-failed returns with a notification and no output frame
(`none`).  Each success has `createComponentSet` run under try/catch —
`assembleOk r = false` models a caught exception, contributing no variant
set — and the final notification counts come from the two filtered lists,
not from the assembly outcomes. -/
def createOutput (assembleOk : NormResult → Bool) (results : List NormResult) :
    Option Output :=
  if (results.filter fun r => r.error.isNone).length = 0 then none
  else some
    { sets := ((results.filter fun r => r.error.isNone).filter
        assembleOk).map createComponentSet,
      notifiedCreated := (results.filter fun r => r.error.isNone).length,
      notifiedFailed := (results.filter fun r => r.error.isSome).length }

/-! ## Helper lemmas: geometry pass -/

mutual
/-- When every `outlineStroke` call throws, a collect-and-outline pass leaves
a node unchanged. -/
theorem passNode_none : ∀ n : FNode, passNode (fun _ => none) n = n
  | .node s cs => by rw [passNode, passList_none cs]
/-- When every `outlineStroke` call throws, a collect-and-outline pass leaves
a forest unchanged. -/
theorem passList_none : ∀ cs : List FNode, passList (fun _ => none) cs = cs
  | [] => by rw [passList]
  | c :: cs => by
      rw [passList, passNode_none c, passList_none cs]
      simp
end

/-- When every `outlineStroke` call throws, the outline loop returns its input
tree. -/
theorem outlineLoop_none_fst (fuel : Nat) (comp : FNode) :
    (outlineLoop (fun _ => none) fuel comp).1 = comp := by
  induction fuel generalizing comp with
  | zero => rfl
  | succ k ih =>
      rw [outlineLoop]
      split
      · rfl
      · simpa [passNode_none comp] using ih (passNode (fun _ => none) comp)

/-- A failed flatten leaves the component unchanged. -/
theorem flattenPhase_false (comp : FNode) : flattenPhase false comp = comp := by
  unfold flattenPhase
  split <;> rfl

/-- When every outline call throws and the flatten throws, the Geometry
Normalizer reduces to the phase-3 strip pass alone. -/
theorem outlineAndFlatten_allFail (comp : FNode) :
    outlineAndFlatten (fun _ => none) false comp = stripChildren comp := by
  unfold outlineAndFlatten
  rw [outlineLoop_none_fst, flattenPhase_false]

/-- The strip pass zeroes the stroke count of every child it touches. -/
theorem stripChild_strokes (c : FNode) : (stripChild c).strokes = 0 := by
  unfold stripChild
  split
  · rfl
  · omega

/-- Stripping an already-stripped child changes nothing. -/
theorem stripChild_idem (c : FNode) : stripChild (stripChild c) = stripChild c := by
  unfold stripChild
  split
  · simp [FNode.strokes]
  · rfl

/-- Every immediate child of a stripped component has zero strokes. -/
theorem stripChildren_all_zero (comp : FNode) :
    ((stripChildren comp).children.all fun c => c.strokes == 0) = true := by
  simp only [stripChildren, FNode.children, List.all_map, List.all_eq_true]
  intro c _
  simp [stripChild_strokes c]

/-- The strip pass is idempotent. -/
theorem stripChildren_idem (comp : FNode) :
    stripChildren (stripChildren comp) = stripChildren comp := by
  unfold stripChildren
  simp only [FNode.children, FNode.strokes, List.map_map]
  congr 1
  apply List.map_congr_left
  intro c _
  exact stripChild_idem c

/-- The pass counter of the outline loop never exceeds the fuel. -/
theorem outlineLoop_count_le (out : FNode → Option FNode) (fuel : Nat)
    (comp : FNode) : (outlineLoop out fuel comp).2 ≤ fuel := by
  induction fuel generalizing comp with
  | zero => simp [outlineLoop]
  | succ k ih =>
      rw [outlineLoop]
      split
      · simp
      · simpa using Nat.succ_le_succ (ih (passNode out comp))

/-- A scan that finds zero stroked nodes stops the loop at once, whatever
fuel remains. -/
theorem outlineLoop_zero_scan (out : FNode → Option FNode) (fuel : Nat)
    (comp : FNode) (h : strokedCountList comp.children = 0) :
    outlineLoop out fuel comp = (comp, 0) := by
  cases fuel with
  | zero => rfl
  | succ k => rw [outlineLoop, if_pos h]

/-- After a successful flatten and the strip pass, the whole subtree below
the component is stroke-free. -/
theorem flatten_true_strip_strokefree (x : FNode) :
    strokedCountList ((stripChildren (flattenPhase true x)).children) = 0 := by
  unfold flattenPhase
  split
  · simp [stripChildren, FNode.children, stripChild, strokedCountList, strokedCount]
  · rename_i h
    have hx : x.children = [] := by
      cases hc : x.children with
      | nil => rfl
      | cons a l => rw [hc] at h; simp at h
    simp [stripChildren, hx, strokedCountList]

/-! ## Claim C1 -/

/-- C1 counterexample.  The claim asserts that after `outlineAndFlatten`
returns, the size-node's subtree carries zero active strokes even when every
stroke-outlining call failed and the flatten call failed.  Take a size-node
whose child carries one stroke and whose grandchild carries one stroke, let
every `outlineStroke` call throw and let `figma.flatten` throw: the phase-3
strip pass only clears strokes on immediate children, so the stroked
grandchild survives and the subtree still contains a stroked node. -/
theorem c1_counterexample :
    ¬ (strokedCountList ((outlineAndFlatten (fun _ => none) false
        (FNode.node 0 [FNode.node 1 [FNode.node 1 []]])).children) = 0) := by
  rw [outlineAndFlatten_allFail]
  simp [stripChildren, stripChild, FNode.children, FNode.strokes,
    strokedCountList, strokedCount]

/-- C1 (amended): for every size-node processed by the Geometry Normalizer,
after the normalizer returns every immediate child of the size-node carries
zero active stroke attributes, whatever the outline primitive did on each
node and even when the flatten call failed; strokes on deeper descendants can
survive when both outlining and flatten fail. -/
theorem c1_strip_immediate (out : FNode → Option FNode) (flattenOk : Bool)
    (comp : FNode) :
    ((outlineAndFlatten out flattenOk comp).children.all
      fun c => c.strokes == 0) = true := by
  unfold outlineAndFlatten
  exact stripChildren_all_zero _

/-- C1 witness: instance of the amended theorem at a concrete stroked tree
under total outlining and flatten failure. -/
theorem c1_strip_immediate_witness :
    ((outlineAndFlatten (fun _ => none) false
        (FNode.node 0 [FNode.node 3 []])).children.all
      fun c => c.strokes == 0) = true :=
  c1_strip_immediate (fun _ => none) false (FNode.node 0 [FNode.node 3 []])

/-! ## Claim C6 -/

/-- C6: the outline pass of the Geometry Normalizer terminates.  It performs
at most 5 collect-and-outline passes; a scan that finds zero stroked nodes
stops the loop immediately, whatever fuel remains; and the normalizer's
result is always the strip pass applied to the flatten attempt applied to
the loop's output — in particular, when stroked nodes remain after the fifth
pass the normalizer proceeds to the flatten pass rather than failing. -/
theorem c6_outline_termination (out : FNode → Option FNode) (flattenOk : Bool)
    (comp : FNode) :
    (outlineLoop out 5 comp).2 ≤ 5
    ∧ (∀ fuel, strokedCountList comp.children = 0 →
        outlineLoop out fuel comp = (comp, 0))
    ∧ outlineAndFlatten out flattenOk comp =
        stripChildren (flattenPhase flattenOk (outlineLoop out 5 comp).1) := by
  refine ⟨outlineLoop_count_le out 5 comp, ?_, rfl⟩
  intro fuel h
  exact outlineLoop_zero_scan out fuel comp h

/-- C6 witness: the termination bound and the zero-scan early stop at a
concrete stroke-free component. -/
theorem c6_outline_termination_witness :
    (outlineLoop (fun _ => none) 5 (FNode.node 0 [])).2 ≤ 5
    ∧ outlineLoop (fun _ => none) 3 (FNode.node 0 []) =
        (FNode.node 0 [], 0) := by
  refine ⟨(c6_outline_termination (fun _ => none) false (FNode.node 0 [])).1, ?_⟩
  exact (c6_outline_termination (fun _ => none) false (FNode.node 0 [])).2.1 3
    (by simp [FNode.children, strokedCountList])

/-! ## Claim C7 -/

/-- C7 counterexample.  The claim asserts that running the Geometry Normalizer
twice on the same subtree yields zero active strokes after each of the two
runs.  Under total outlining failure and flatten failure, a stroked
grandchild survives both runs, so even the second run does not reach zero
active strokes in the subtree. -/
theorem c7_counterexample :
    ¬ (strokedCountList ((outlineAndFlatten (fun _ => none) false
        (outlineAndFlatten (fun _ => none) false
          (FNode.node 0 [FNode.node 2 [FNode.node 5 []]]))).children) = 0) := by
  rw [outlineAndFlatten_allFail, outlineAndFlatten_allFail]
  simp [stripChildren, stripChild, FNode.children, FNode.strokes,
    strokedCountList, strokedCount]

/-- C7 (amended): running the Geometry Normalizer twice on the same size-node
subtree yields zero active strokes among the immediate children after each of
the two runs; when the flatten primitive succeeds, both runs leave the whole
subtree stroke-free; and when every stroke-outlining call fails and the
flatten call fails, the second run returns its input unchanged (the
normalizer is idempotent there), so it is a no-op on the subtree's stroke
count.  Strokes on deeper descendants can survive both runs when both
outlining and flatten fail. -/
theorem c7_idempotent_strip (out : FNode → Option FNode) (flattenOk : Bool)
    (comp : FNode) :
    (((outlineAndFlatten out flattenOk comp).children.all
        fun c => c.strokes == 0) = true
      ∧ ((outlineAndFlatten out flattenOk
            (outlineAndFlatten out flattenOk comp)).children.all
          fun c => c.strokes == 0) = true)
    ∧ (strokedCountList ((outlineAndFlatten out true comp).children) = 0
      ∧ strokedCountList ((outlineAndFlatten out true
          (outlineAndFlatten out true comp)).children) = 0)
    ∧ outlineAndFlatten (fun _ => none) false
        (outlineAndFlatten (fun _ => none) false comp) =
      outlineAndFlatten (fun _ => none) false comp := by
  refine ⟨⟨?_, ?_⟩, ⟨?_, ?_⟩, ?_⟩
  · unfold outlineAndFlatten; exact stripChildren_all_zero _
  · unfold outlineAndFlatten; exact stripChildren_all_zero _
  · unfold outlineAndFlatten; exact flatten_true_strip_strokefree _
  · unfold outlineAndFlatten; exact flatten_true_strip_strokefree _
  · rw [outlineAndFlatten_allFail comp,
      outlineAndFlatten_allFail (stripChildren comp)]
    exact stripChildren_idem comp

/-- C7 witness: instance of the amended theorem at a concrete stroked tree. -/
theorem c7_idempotent_strip_witness :
    outlineAndFlatten (fun _ => none) false
        (outlineAndFlatten (fun _ => none) false (FNode.node 0 [FNode.node 4 []])) =
      outlineAndFlatten (fun _ => none) false (FNode.node 0 [FNode.node 4 []]) :=
  (c7_idempotent_strip (fun _ => none) false (FNode.node 0 [FNode.node 4 []])).2.2

/-! ## Claim C8 -/

/-- C8: behaviour of selection resolution at the two empty outcomes.  An
empty selection notifies the user and closes the plugin with an empty icon
list (the EmptySelection abort).  But when the selection is nonempty and
every selected node is filtered out (here: a single node that does not
support export), the resolver returns an empty icon list with NO user
notification and WITHOUT closing the plugin, and `main` then returns
silently — contradicting the claim that whenever the final candidate list is
empty the pipeline aborts with a user-reported failure. -/
theorem c8_silent_abort :
    (getIconNodes []).icons = []
    ∧ (getIconNodes []).notified = true
    ∧ (getIconNodes []).closed = true
    ∧ (getIconNodes [SNode.mk false true NType.other false []]).icons = []
    ∧ (getIconNodes [SNode.mk false true NType.other false []]).notified = false
    ∧ (getIconNodes [SNode.mk false true NType.other false []]).closed = false := by
  refine ⟨rfl, rfl, rfl, ?_, ?_, ?_⟩ <;>
    simp [getIconNodes, isExportableNode, SNode.hasChildren, SNode.exportable,
      SNode.visible, List.filter]

/-! ## Claim C9 -/

/-- C9: when the selection consists of exactly one node of component or
instance kind that has at least one child, the resolver returns that node
itself as the single icon.  No hypothesis about the node's visibility or
exportability is needed, so an invisible component or instance is still
processed as an icon. -/
theorem c9_single_component_selection (n : SNode)
    (hch : n.hasChildren = true) (hlen : 0 < n.children.length)
    (hty : n.ntype = NType.component ∨ n.ntype = NType.inst) :
    (getIconNodes [n]).icons = [n] := by
  rw [getIconNodes]
  rw [if_pos ⟨rfl, hch, hlen⟩, if_pos hty]

/-- C9 witness: a single selected instance that is invisible and does not
even support export is still returned as the one icon. -/
theorem c9_single_component_selection_witness :
    (getIconNodes [SNode.mk false false NType.inst true
        [SNode.mk true true NType.other false []]]).icons =
      [SNode.mk false false NType.inst true
        [SNode.mk true true NType.other false []]] :=
  c9_single_component_selection
    (SNode.mk false false NType.inst true [SNode.mk true true NType.other false []])
    rfl (by simp [SNode.children]) (Or.inr rfl)

/-! ## Helper lemmas: output creation -/

/-- The success filter and the failure filter of `createOutput` partition the
result list, so their lengths add up to the batch size. -/
theorem length_filter_split (l : List NormResult) :
    (l.filter fun r => r.error.isNone).length
      + (l.filter fun r => r.error.isSome).length = l.length := by
  induction l with
  | nil => rfl
  | cons r t ih =>
      cases h : r.error <;>
        simp [List.filter_cons, h] <;> omega

/-- A filter whose predicate holds on every member of the list is the
identity. -/
theorem filter_all_true {α : Type} (p : α → Bool) (l : List α)
    (h : ∀ a ∈ l, p a = true) : l.filter p = l :=
  List.filter_eq_self.mpr h

/-! ## Claim C2 -/

/-- C2: for every batch of N >= 1 icons whose normalization results all
succeed (error is null) and whose per-icon assembly raises no exception, the
output container exists and contains exactly N variant sets, and each variant
set contains exactly 3 size-nodes sized 16, 24 and 32, in that order. -/
theorem c2_all_success_output (results : List NormResult)
    (assembleOk : NormResult → Bool)
    (hne : results ≠ [])
    (herr : ∀ r ∈ results, r.error = none)
    (haok : ∀ r ∈ results, assembleOk r = true) :
    ∃ o, createOutput assembleOk results = some o
      ∧ o.sets.length = results.length
      ∧ ∀ vs ∈ o.sets, vs.variants.map SizeNode.size = [16, 24, 32] := by
  have hsucc : (results.filter fun r => r.error.isNone) = results :=
    filter_all_true _ _ (fun r hr => by simp [herr r hr])
  have hlen : ¬ ((results.filter fun r => r.error.isNone).length = 0) := by
    rw [hsucc]
    simpa [List.length_eq_zero] using hne
  refine ⟨_, by rw [createOutput, if_neg hlen], ?_, ?_⟩
  · simp only [hsucc, filter_all_true assembleOk results haok, List.length_map]
  · intro vs hvs
    simp only [hsucc, filter_all_true assembleOk results haok,
      List.mem_map] at hvs
    obtain ⟨r, _, rfl⟩ := hvs
    simp [createComponentSet, targetSizes]

/-- C2 witness: a singleton all-successful batch yields exactly one variant
set with the three sizes in order. -/
theorem c2_all_success_output_witness :
    (createOutput (fun _ => true) [⟨"home", none⟩]).map
        (fun o => o.sets.length) = some 1 := by
  obtain ⟨o, ho, hl, _⟩ :=
    c2_all_success_output [⟨"home", none⟩] (fun _ => true)
      (by simp) (by simp) (by simp)
  rw [ho]
  simp only [Option.map_some']
  rw [hl]
  rfl

/-! ## Claim C3 -/

/-- C3 counterexample.  The claim asserts that with N = 3 requested icons of
which exactly K = 1 fails normalization, the failure count reported to the
user equals N - K = 2.  The code reports `failedResults.length`, which is
K = 1, not 2. -/
theorem c3_counterexample :
    (createOutput (fun _ => true)
        [⟨"a", none⟩, ⟨"b", none⟩, ⟨"c", some "boom"⟩]).map
        Output.notifiedFailed = some 1
    ∧ ¬ ((createOutput (fun _ => true)
        [⟨"a", none⟩, ⟨"b", none⟩, ⟨"c", some "boom"⟩]).map
        Output.notifiedFailed = some (3 - 1)) := by
  constructor <;> decide

/-- C3 (amended): for every request of N icons of which exactly K
(0 < K < N) fail normalization, with per-icon assembly raising no exception,
the output contains exactly N - K variant sets (K fewer than N), the failure
count reported to the user equals K, and the reported success count equals
N - K. -/
theorem c3_partial_failure_counts (results : List NormResult)
    (assembleOk : NormResult → Bool)
    (haok : ∀ r ∈ results, assembleOk r = true)
    (_hK0 : 0 < (results.filter fun r => r.error.isSome).length)
    (hKN : (results.filter fun r => r.error.isSome).length < results.length) :
    ∃ o, createOutput assembleOk results = some o
      ∧ o.sets.length =
          results.length - (results.filter fun r => r.error.isSome).length
      ∧ o.notifiedFailed = (results.filter fun r => r.error.isSome).length
      ∧ o.notifiedCreated =
          results.length - (results.filter fun r => r.error.isSome).length := by
  have hsplit := length_filter_split results
  have hsucc : (results.filter fun r => r.error.isNone).length =
      results.length - (results.filter fun r => r.error.isSome).length := by
    omega
  have hlen : ¬ ((results.filter fun r => r.error.isNone).length = 0) := by
    omega
  have haok2 : ((results.filter fun r => r.error.isNone).filter assembleOk) =
      results.filter fun r => r.error.isNone :=
    filter_all_true _ _ (fun r hr => haok r (List.mem_filter.mp hr).1)
  refine ⟨_, by rw [createOutput, if_neg hlen], ?_, rfl, ?_⟩
  · simp only [haok2, List.length_map, hsucc]
  · simpa using hsucc

/-- C3 witness: two icons, one failed: the output has one variant set, the
reported failure count is 1 and the reported success count is 1. -/
theorem c3_partial_failure_counts_witness :
    (createOutput (fun _ => true) [⟨"a", none⟩, ⟨"b", some "e"⟩]).map
        (fun o => (o.sets.length, o.notifiedCreated, o.notifiedFailed)) =
      some (1, 1, 1) := by
  obtain ⟨o, ho, h1, h2, h3⟩ :=
    c3_partial_failure_counts [⟨"a", none⟩, ⟨"b", some "e"⟩] (fun _ => true)
      (by simp) (by decide) (by decide)
  rw [ho]
  simp only [Option.map_some']
  rw [h1, h2, h3]
  rfl

/-! ## Claim C4 -/

/-- C4 counterexample.  The claim asserts that the reported success count
equals the number of icons whose variant set was actually created, an icon
whose assembly step throws counting as failed.  Take one result with null
error whose `createComponentSet` call throws: the output contains zero
variant sets, yet the final notification still reports 1 created icon. -/
theorem c4_counterexample :
    (createOutput (fun _ => false) [⟨"x", none⟩]).map
        Output.notifiedCreated = some 1
    ∧ (createOutput (fun _ => false) [⟨"x", none⟩]).map
        (fun o => o.sets.length) = some 0
    ∧ (1 : Nat) ≠ 0 := by
  refine ⟨?_, ?_, by decide⟩ <;> decide

/-- C4 (amended): the Result Reporter partitions icons by the `error` field
of the normalization result, not by whether the Variant Assembler completed:
whenever `createOutput` produces an output, the reported success count equals
the number of results with null error and the reported failure count equals
the number of results with non-null error, while the number of variant sets
actually present equals the number of null-error results whose assembly
completed.  An icon whose assembly step throws is therefore still counted in
the reported success count although its variant set is absent. -/
theorem c4_reporter_partition (results : List NormResult)
    (assembleOk : NormResult → Bool) (o : Output)
    (h : createOutput assembleOk results = some o) :
    o.notifiedCreated = (results.filter fun r => r.error.isNone).length
    ∧ o.notifiedFailed = (results.filter fun r => r.error.isSome).length
    ∧ o.sets.length =
        ((results.filter fun r => r.error.isNone).filter assembleOk).length := by
  rw [createOutput] at h
  split at h
  · exact absurd h (by simp)
  · obtain rfl := (Option.some.injEq _ _).mp h
    exact ⟨rfl, rfl, by simp [List.length_map]⟩

/-- C4 witness: instance of the amended theorem at a concrete singleton
batch whose assembly completes. -/
theorem c4_reporter_partition_witness :
    (Output.mk [createComponentSet ⟨"a", none⟩] 1 0).notifiedCreated =
      ([(⟨"a", none⟩ : NormResult)].filter fun r => r.error.isNone).length :=
  (c4_reporter_partition [⟨"a", none⟩] (fun _ => true)
    (Output.mk [createComponentSet ⟨"a", none⟩] 1 0) rfl).1

/-! ## Helper lemmas: base-name derivation -/

/-- The specification-side description of a size suffix coincides with the
finite language of the pattern at code.js line 194. -/
theorem specSuffix_iff_mem (f : String) : SpecSizeSuffix f ↔ f ∈ suffixForms := by
  unfold SpecSizeSuffix suffixForms
  simp only [List.mem_flatMap, List.mem_map]
  constructor
  · rintro ⟨a, ha, b, hb, u, hu, rfl⟩
    exact ⟨a, ha, b, hb, u, hu, rfl⟩
  · rintro ⟨a, ha, b, hb, u, hu, hf⟩
    exact ⟨a, ha, b, hb, u, hu, hf.symm⟩

/-! ## Claim C5 -/

/-- C5: for every display name, the variant-set base is derived by stripping
one trailing size suffix — an optional underscore or hyphen separator, one of
the numerals 16, 24, 32, and optional unit letters, matched
case-insensitively — and a name with no such suffix is left unchanged.
When a suffix is stripped, the derived base really is the name with that
suffix removed: base characters followed by suffix characters give back the
name. -/
theorem c5_variant_base_strip (s : String) :
    (∃ f, SpecSizeSuffix f ∧ strEndsWith s f = true
        ∧ stripSizeSuffix s = strDropRightN s f.length
        ∧ (strDropRightN s f.length).data ++ f.data = s.data)
    ∨ ((∀ f, SpecSizeSuffix f → strEndsWith s f = false)
        ∧ stripSizeSuffix s = s) := by
  unfold stripSizeSuffix
  split
  · rename_i f heq
    left
    have hmem : f ∈ suffixForms.filter fun g => strEndsWith s g :=
      List.argmax_mem (Option.mem_def.mpr heq)
    obtain ⟨hform, hend⟩ := List.mem_filter.mp hmem
    have hsuf : f.data <:+ s.data := by
      have : List.isSuffixOf f.data s.data = true := hend
      exact List.isSuffixOf_iff_suffix.mp this
    obtain ⟨t, ht⟩ := hsuf
    have hdata : (strDropRightN s f.length).data = t := by
      unfold strDropRightN
      have hlen : s.data.length - f.length = t.length := by
        have := congrArg List.length ht
        simp only [List.length_append] at this
        simp only [String.length]
        omega
      rw [hlen, ← ht, List.take_left]
    refine ⟨f, (specSuffix_iff_mem f).mpr hform, hend, rfl, ?_⟩
    rw [hdata, ht]
  · rename_i heq
    right
    have hnil : (suffixForms.filter fun g => strEndsWith s g) = [] :=
      List.argmax_eq_none.mp heq
    refine ⟨?_, rfl⟩
    intro f hf
    have hnot := List.filter_eq_nil_iff.mp hnil f ((specSuffix_iff_mem f).mp hf)
    simpa using hnot

/-- C5 witness: the theorem instantiated at a concrete suffixed name. -/
theorem c5_variant_base_strip_witness :
    (∃ f, SpecSizeSuffix f ∧ strEndsWith "home_16" f = true
        ∧ stripSizeSuffix "home_16" = strDropRightN "home_16" f.length
        ∧ (strDropRightN "home_16" f.length).data ++ f.data = "home_16".data)
    ∨ ((∀ f, SpecSizeSuffix f → strEndsWith "home_16" f = false)
        ∧ stripSizeSuffix "home_16" = "home_16") :=
  c5_variant_base_strip "home_16"

/-! ## Claim C10 -/

/-- C10: for every display name that consists entirely of a size suffix
(every word of the pattern language, for example "16" or "_24dp"), the
derived base is the empty string, the three size components are named "_16",
"_24" and "_32", and the resulting variant set's canonical name is the empty
string. -/
theorem c10_suffix_only_names : ∀ s ∈ suffixForms,
    (createComponentSet ⟨s, none⟩).name = ""
    ∧ (createComponentSet ⟨s, none⟩).variants.map SizeNode.name
        = ["_16", "_24", "_32"] := by
  decide

/-- C10 witness: the name "16" yields the empty base, size-node names "_16",
"_24", "_32", and the empty canonical set name. -/
theorem c10_suffix_only_names_witness :
    (createComponentSet ⟨"16", none⟩).name = ""
    ∧ (createComponentSet ⟨"16", none⟩).variants.map SizeNode.name
        = ["_16", "_24", "_32"] :=
  c10_suffix_only_names "16" (by decide)
